import Mathlib

/-!
Shallow embedding of the CallGuardAI fraud detection core
(backend/app/ml/fraud_detector.py) and of the classification step of the
AI voice detector (backend/app/ml/ai_voice_detector.py), together with
proofs relating the code to the natural-language specification.

Modelling conventions.

* Python floats are modelled as exact rationals; all arithmetic is exact.
* Python round(x, 1) is modelled by round1 below, i.e. rounding x*10 to the
  nearest integer (half upwards).  CPython rounds halves to even, but no
  statement in this file evaluates round1 on an exact half, so the choice is
  immaterial here.
* The four regex families of FraudDetector._analyze_patterns consume only the
  result lists of re.findall (one list per family).  Those match lists are
  taken as an explicit input of the embedding (structure PatternMatches),
  modelling the findall outputs.  None of the family regexes can match the
  empty string, so the empty transcript corresponds to four empty match lists.
* Output fields of FraudDetector.detect that merely reformat the signal list
  for display (suspicious_keywords, fraud_indicators, highlighted_phrases,
  explanation) are not modelled; no verified property mentions them.
* Python str.lower is modelled by String.toLower; on the ASCII keyword tables
  of this file the two agree.
-/

set_option maxRecDepth 10000

/-- Individual fraud detection signal (dataclass FraudSignal). -/
structure FraudSignal where
  signalType : String
  category : String
  description : String
  confidence : ℚ
  weight : ℚ
  evidence : List String
deriving DecidableEq

/-- self.fraud_keywords: category -> severity -> keyword list. -/
def fraudKeywords : List (String × List (String × List String)) :=
  [("fraud",
    [("high",
      ["bank account suspended", "verify your account", "unauthorized transaction",
       "security breach", "account compromised", "wire transfer immediately",
       "send money", "gift cards", "bitcoin payment", "western union",
       "money gram", "confirm your identity", "account locked", "IRS",
       "arrest warrant", "legal action", "court order"]),
     ("medium",
      ["verify", "confirm", "urgent action", "immediate response",
       "update your information", "security alert", "suspicious activity",
       "temporary hold", "verification required"])]),
   ("phishing",
    [("high",
      ["social security number", "credit card number", "CVV", "OTP",
       "one time password", "login credentials", "password reset",
       "click the link", "verify your password", "personal information",
       "bank details", "routing number", "account number"]),
     ("medium",
      ["verify", "update details", "confirm information", "security code",
       "pin number", "mother\x27s maiden name", "date of birth"])]),
   ("spam",
    [("high",
      ["congratulations you won", "lottery winner", "prize winner",
       "claim your reward", "free offer", "exclusive deal",
       "you have been selected", "million dollars", "inheritance"]),
     ("medium",
      ["limited time", "act now", "special offer", "discount",
       "promotion", "free trial", "no obligation", "call back"])]),
   ("robocall",
    [("high",
      ["press 1 to", "press 2 to", "this is an automated message",
       "pre-recorded", "automated call", "please hold for"]),
     ("medium",
      ["your call is important", "do not hang up", "stay on the line",
       "recording", "representative", "operator"])])]

/-- self.hindi_keywords: category -> keyword list. -/
def hindiKeywords : List (String × List String) :=
  [("fraud",
    ["aapka khata", "bank se bol raha", "OTP batao", "paise transfer",
     "lottery jeeta", "KYC update", "aadhar link", "pan card verify",
     "turant bhejo", "account band ho jayega", "verify karo",
     "RBI se", "income tax", "police", "CBI"])]

/-- self.upi_fraud_keywords: severity -> keyword list. -/
def upiFraudKeywords : List (String × List String) :=
  [("high",
    ["UPI payment", "UPI request", "payment is pending", "accept the request",
     "receive money", "collect request", "payment request", "GPay", "PhonePe",
     "Paytm", "BHIM", "₹", "Rs.", "rupees", "lakh", "crore",
     "cashback", "refund pending", "refund request", "KYC expired",
     "KYC update", "link Aadhaar", "link PAN", "bank account blocked",
     "RBI notification", "government scheme", "PM scheme", "subsidy",
     "before it expires", "expires today", "expires soon", "do it now",
     "account will be blocked", "account blocked", "update your Aadhaar",
     "update your PAN", "Aadhaar", "PAN card", "KYC has expired",
     "verify Aadhaar", "verify PAN", "link your", "blocked", "suspended"]),
   ("medium",
    ["accept request", "pending request", "money transfer", "send money",
     "payment link", "scan QR", "QR code", "collect money", "update immediately",
     "immediately", "urgent", "dear customer"])]

/-- Python substring test on char lists: does needle occur somewhere in hay? -/
def containsSub : List Char → List Char → Bool
  | [], needle => decide (needle = [])
  | c :: t, needle => needle.isPrefixOf (c :: t) || containsSub t needle

/-- Python needle in hay for strings. -/
def strIn (needle hay : String) : Bool := containsSub hay.data needle.data

/-- The signal appended for a main-table keyword hit (severity high or medium). -/
def kwSignal (cat sev kw : String) : FraudSignal :=
  ⟨"keyword", cat,
   "Detected " ++ sev ++ "-risk " ++ cat ++ " keyword: \x27" ++ kw ++ "\x27",
   if sev = "high" then 0.9 else 0.7,
   if sev = "high" then 1.5 else 1.0,
   [kw]⟩

/-- Main fraud_keywords loop of _analyze_linguistic. -/
def mainKeywordSignals (text : String) : List FraudSignal :=
  fraudKeywords.flatMap fun p =>
    p.2.flatMap fun q =>
      (q.2.filter fun kw => strIn kw.toLower text.toLower).map fun kw =>
        kwSignal p.1 q.1 kw

/-- Hindi keyword loop of _analyze_linguistic. -/
def hindiSignals (text : String) : List FraudSignal :=
  hindiKeywords.flatMap fun p =>
    (p.2.filter fun kw => strIn kw.toLower text.toLower).map fun kw =>
      (⟨"keyword", p.1,
        "Detected Hindi " ++ p.1 ++ " keyword: \x27" ++ kw ++ "\x27",
        0.85, 1.4, [kw]⟩ : FraudSignal)

/-- UPI/Indian payment fraud keyword loop of _analyze_linguistic. -/
def upiSignals (text : String) : List FraudSignal :=
  upiFraudKeywords.flatMap fun p =>
    (p.2.filter fun kw => strIn kw.toLower text.toLower).map fun kw =>
      (⟨"keyword", "fraud",
        "Detected " ++ p.1 ++ "-risk UPI/payment fraud keyword: \x27" ++ kw ++ "\x27",
        if p.1 = "high" then 0.9 else 0.7,
        if p.1 = "high" then 1.5 else 1.0,
        [kw]⟩ : FraudSignal)

/-- FraudDetector._analyze_linguistic. -/
def analyzeLinguistic (text : String) : List FraudSignal :=
  mainKeywordSignals text ++ hindiSignals text ++ upiSignals text

/-- The re.findall result lists of the four regex families of
_analyze_patterns, one list per family. -/
structure PatternMatches where
  urgency : List String
  threat : List String
  request : List String
  robocall : List String
deriving DecidableEq

/-- Aggregate urgency signal of _analyze_patterns. -/
def urgencySignal (ms : List String) : FraudSignal :=
  ⟨"pattern", "general", "High urgency language detected",
   min ((0.5 : ℚ) + (ms.length : ℚ) * 0.1) 0.95, 1.3, ms.take 5⟩

/-- Aggregate threat signal of _analyze_patterns. -/
def threatSignal (ms : List String) : FraudSignal :=
  ⟨"pattern", "fraud", "Threatening language detected",
   min ((0.6 : ℚ) + (ms.length : ℚ) * 0.1) 0.95, 1.5, ms.take 5⟩

/-- Aggregate sensitive-information-request signal of _analyze_patterns. -/
def requestSignal (ms : List String) : FraudSignal :=
  ⟨"pattern", "phishing", "Request for sensitive information detected",
   0.9, 1.6, ms.take 3⟩

/-- Aggregate robocall signal of _analyze_patterns. -/
def robocallSignal (ms : List String) : FraudSignal :=
  ⟨"pattern", "robocall", "Automated call patterns detected",
   0.85, 1.4, ms.take 3⟩

/-- FraudDetector._analyze_patterns, over the findall results per family. -/
def analyzePatterns (urgency threat request robocall : List String) : List FraudSignal :=
  (if urgency = [] then [] else [urgencySignal urgency])
    ++ (if threat = [] then [] else [threatSignal threat])
    ++ (if request = [] then [] else [requestSignal request])
    ++ (if robocall = [] then [] else [robocallSignal robocall])

/-- Optional acoustic feature bundle; a None field models an absent dict key
(the code reads every key with dict.get and a default). -/
structure AcousticFeatures where
  speaking_rate : Option ℚ
  stress_level : Option ℚ
  synthetic_probability : Option ℚ
  background_noise_type : Option String
deriving DecidableEq

/-- FraudDetector._analyze_acoustic. -/
def analyzeAcoustic (f : AcousticFeatures) : List FraudSignal :=
  (if f.speaking_rate.getD 150 > 200 then
    [⟨"acoustic", "general", "Unusually fast speaking rate detected", 0.7, 1.1,
      ["Speaking rate: " ++ toString (f.speaking_rate.getD 150) ++ " WPM"]⟩]
   else [])
  ++ (if f.stress_level.getD 0 > 0.7 then
    [⟨"acoustic", "general", "High voice stress detected", f.stress_level.getD 0, 1.2,
      ["Stress level: " ++ toString (f.stress_level.getD 0)]⟩]
   else [])
  ++ (if f.synthetic_probability.getD 0 > 0.6 then
    [⟨"acoustic", "robocall", "Possible synthetic/robotic voice detected",
      f.synthetic_probability.getD 0, 1.5,
      ["Synthetic probability: " ++ toString (f.synthetic_probability.getD 0)]⟩]
   else [])
  ++ (if f.background_noise_type = some "call_center" then
    [⟨"acoustic", "spam", "Call center background noise detected", 0.6, 1.0,
      ["Call center ambient noise"]⟩]
   else [])

/-- Optional behavioral data bundle. -/
structure BehavioralData where
  interruptions_count : Option ℚ
  pressure_score : Option ℚ
  evasiveness_score : Option ℚ
deriving DecidableEq

/-- FraudDetector._analyze_behavioral. -/
def analyzeBehavioral (d : BehavioralData) : List FraudSignal :=
  (if d.interruptions_count.getD 0 > 5 then
    [⟨"behavioral", "general", "Aggressive caller behavior - frequent interruptions",
      0.65, 1.1, ["High interruption count"]⟩]
   else [])
  ++ (if d.pressure_score.getD 0 > 0.7 then
    [⟨"behavioral", "fraud", "High-pressure tactics detected",
      d.pressure_score.getD 0.7, 1.4, ["Pressure tactics identified"]⟩]
   else [])
  ++ (if d.evasiveness_score.getD 0 > 0.6 then
    [⟨"behavioral", "fraud", "Evasive responses detected", 0.7, 1.2,
      ["Caller avoids direct questions"]⟩]
   else [])

/-- The key list of the category_scores/category_weights dicts. -/
def theFiveCategories : List String := ["spam", "fraud", "phishing", "robocall", "general"]

/-- One iteration of the signal loop of _calculate_scores: the two dicts are
modelled as one function from category to (score sum, weight sum); a signal
whose category is not a dict key is skipped. -/
def dictStep (acc : String → ℚ × ℚ) (s : FraudSignal) : String → ℚ × ℚ :=
  if s.category ∈ theFiveCategories then
    fun c => if c = s.category
      then ((acc c).1 + s.confidence * s.weight, (acc c).2 + s.weight)
      else acc c
  else acc

/-- The accumulated (score sum, weight sum) dicts after the signal loop. -/
def catDict (signals : List FraudSignal) : String → ℚ × ℚ :=
  signals.foldl dictStep fun _ => (0, 0)

/-- Normalization step of _calculate_scores for one category. -/
def normalizeCat (raw w : ℚ) : ℚ := if w > 0 then min (raw / max w 1) 1 else raw

/-- Python round(x, 1). -/
def round1 (x : ℚ) : ℚ := (round (x * 10) : ℤ) / 10

/-- The score dict returned by _calculate_scores. -/
structure Scores where
  spam : ℚ
  fraud : ℚ
  phishing : ℚ
  robocall : ℚ
  overall : ℚ
deriving DecidableEq

/-- FraudDetector._calculate_scores. -/
def calculateScores (signals : List FraudSignal) : Scores :=
  let d := catDict signals
  let spam := normalizeCat (d "spam").1 (d "spam").2
  let fraud := normalizeCat (d "fraud").1 (d "fraud").2
  let phishing := normalizeCat (d "phishing").1 (d "phishing").2
  let robocall := normalizeCat (d "robocall").1 (d "robocall").2
  let general := normalizeCat (d "general").1 (d "general").2
  let maxCategoryScore := max (max (max spam fraud) phishing) robocall
  let activeCategories : ℕ :=
    (if spam > 0.3 then 1 else 0) + (if fraud > 0.3 then 1 else 0)
      + (if phishing > 0.3 then 1 else 0) + (if robocall > 0.3 then 1 else 0)
      + (if general > 0.3 then 1 else 0)
  let categoryBoost : ℚ :=
    if activeCategories > 1 then 1 + ((activeCategories : ℚ) - 1) * 0.1 else 1
  let generalModifier : ℚ := 1 + general * 0.2
  let overall := min (maxCategoryScore * categoryBoost * generalModifier * 100) 100
  ⟨spam, fraud, phishing, robocall, round1 overall⟩

/-- Python max over the four-key category_scores dict (first maximum wins). -/
def argmax4 (spam fraud phishing robocall : ℚ) : String × ℚ :=
  let b1 := ("spam", spam)
  let b2 := if fraud > b1.2 then ("fraud", fraud) else b1
  let b3 := if phishing > b2.2 then ("phishing", phishing) else b2
  if robocall > b3.2 then ("robocall", robocall) else b3

/-- The per-category classification thresholds of _determine_classification. -/
def thresholdFor (cat : String) : ℚ :=
  if cat = "spam" then 0.4
  else if cat = "fraud" then 0.5
  else if cat = "phishing" then 0.45
  else 0.5

/-- FraudDetector._determine_classification.  max_category/max_score are the
two components of argmax4 applied to the four scores. -/
def determineClassification (scores : Scores) : String :=
  if scores.overall < 30 then "safe"
  else if (argmax4 scores.spam scores.fraud scores.phishing scores.robocall).2
      ≥ thresholdFor (argmax4 scores.spam scores.fraud scores.phishing scores.robocall).1 then
    (argmax4 scores.spam scores.fraud scores.phishing scores.robocall).1
  else if scores.overall ≥ 50 then "spam"
  else "safe"

/-- Sum of the confidences of a signal list. -/
def sumConf : List FraudSignal → ℚ
  | [] => 0
  | s :: t => s.confidence + sumConf t

/-- FraudDetector._calculate_confidence (the scores argument is unused by the
source, so it is not a parameter here). -/
def calculateConfidence (signals : List FraudSignal) : ℚ :=
  if signals = [] then 0.95
  else
    min (sumConf signals / (signals.length : ℚ)
          + min ((signals.length : ℚ) / 10) 0.2) 0.99

/-- One entry of the signals list of the result dict of detect
(the weight field is not exported by the source). -/
structure SignalOut where
  type : String
  category : String
  description : String
  confidence : ℚ
  evidence : List String
deriving DecidableEq

/-- Conversion of a FraudSignal to its exported form. -/
def FraudSignal.toOut (s : FraudSignal) : SignalOut :=
  ⟨s.signalType, s.category, s.description, s.confidence, s.evidence⟩

/-- The modelled part of the result dict of FraudDetector.detect. -/
structure DetectionResult where
  classification : String
  risk_score : ℚ
  spam_score : ℚ
  fraud_score : ℚ
  phishing_score : ℚ
  robocall_score : ℚ
  signals : List SignalOut
  confidence : ℚ
deriving DecidableEq

/-- The full signal list assembled by detect: linguistic, then acoustic (if
given), then behavioral (if given), then patterns. -/
def allSignals (text : String) (pats : PatternMatches)
    (ac : Option AcousticFeatures) (beh : Option BehavioralData) : List FraudSignal :=
  analyzeLinguistic text
    ++ (match ac with | some f => analyzeAcoustic f | none => [])
    ++ (match beh with | some b => analyzeBehavioral b | none => [])
    ++ analyzePatterns pats.urgency pats.threat pats.request pats.robocall

/-- FraudDetector.detect. -/
def detect (text : String) (pats : PatternMatches)
    (ac : Option AcousticFeatures) (beh : Option BehavioralData) : DetectionResult :=
  let signals := allSignals text pats ac beh
  let scores := calculateScores signals
  ⟨determineClassification scores, scores.overall, scores.spam, scores.fraud,
   scores.phishing, scores.robocall, signals.map FraudSignal.toOut,
   calculateConfidence signals⟩

/-!
Exception-aware variant of the scoring pipeline.  Every Python division of
detect is replaced by a checked division that raises (returns an error) on a
zero divisor, exactly where CPython would raise ZeroDivisionError; the rest of
the pipeline is total.  Proving detectE never errs captures the spec sentence
that the core never raises on inputs of the documented shapes.
-/

/-- Division as CPython performs it: raises on a zero divisor. -/
def qdivE (a b : ℚ) : Except String ℚ :=
  if b = 0 then Except.error "ZeroDivisionError" else Except.ok (a / b)

/-- Normalization step of _calculate_scores with checked division. -/
def normalizeCatE (raw w : ℚ) : Except String ℚ :=
  if w > 0 then do
    let q ← qdivE raw (max w 1)
    pure (min q 1)
  else pure raw

/-- _calculate_scores with checked divisions. -/
def calculateScoresE (signals : List FraudSignal) : Except String Scores := do
  let d := catDict signals
  let spam ← normalizeCatE (d "spam").1 (d "spam").2
  let fraud ← normalizeCatE (d "fraud").1 (d "fraud").2
  let phishing ← normalizeCatE (d "phishing").1 (d "phishing").2
  let robocall ← normalizeCatE (d "robocall").1 (d "robocall").2
  let general ← normalizeCatE (d "general").1 (d "general").2
  let maxCategoryScore := max (max (max spam fraud) phishing) robocall
  let activeCategories : ℕ :=
    (if spam > 0.3 then 1 else 0) + (if fraud > 0.3 then 1 else 0)
      + (if phishing > 0.3 then 1 else 0) + (if robocall > 0.3 then 1 else 0)
      + (if general > 0.3 then 1 else 0)
  let categoryBoost : ℚ :=
    if activeCategories > 1 then 1 + ((activeCategories : ℚ) - 1) * 0.1 else 1
  let generalModifier : ℚ := 1 + general * 0.2
  let overall := min (maxCategoryScore * categoryBoost * generalModifier * 100) 100
  pure ⟨spam, fraud, phishing, robocall, round1 overall⟩

/-- _calculate_confidence with checked division. -/
def calculateConfidenceE (signals : List FraudSignal) : Except String ℚ :=
  if signals = [] then pure 0.95
  else do
    let avg ← qdivE (sumConf signals) (signals.length : ℚ)
    pure (min (avg + min ((signals.length : ℚ) / 10) 0.2) 0.99)

/-- detect with checked divisions. -/
def detectE (text : String) (pats : PatternMatches)
    (ac : Option AcousticFeatures) (beh : Option BehavioralData) :
    Except String DetectionResult := do
  let signals := allSignals text pats ac beh
  let scores ← calculateScoresE signals
  let conf ← calculateConfidenceE signals
  pure ⟨determineClassification scores, scores.overall, scores.spam, scores.fraud,
    scores.phishing, scores.robocall, signals.map FraudSignal.toOut, conf⟩

/-!
Embedding of AIVoiceDetector._calculate_classification
(backend/app/ml/ai_voice_detector.py).  The analysis argument keeps exactly
the four dict entries the function reads.
-/

/-- Enum VoiceClassification. -/
inductive VoiceClassification where
  | ai_generated
  | human
  | uncertain
deriving DecidableEq

/-- The part of the analysis dict consumed by _calculate_classification. -/
structure VoiceAnalysis where
  ai_indicators : List String
  human_indicators : List String
  ai_score_components : List ℚ
  human_score_components : List ℚ
deriving DecidableEq

/-- Python sum over a list of floats. -/
def qsum : List ℚ → ℚ
  | [] => 0
  | x :: t => x + qsum t

/-- AIVoiceDetector._calculate_classification.  ai_score/human_score are the
component sums, total_score = ai_score + human_score + 0.1, and the
ai/human indicator counts are the lengths of the indicator lists. -/
def calculateClassification (a : VoiceAnalysis) : VoiceClassification × ℚ :=
  if qsum a.ai_score_components > qsum a.human_score_components then
    if a.ai_indicators.length ≥ 4 ∧ qsum a.ai_score_components ≥ 0.35 then
      (VoiceClassification.ai_generated,
        min 0.95 (0.5 + qsum a.ai_score_components
          / (qsum a.ai_score_components + qsum a.human_score_components + 0.1) * 0.45))
    else if a.ai_indicators.length ≥ 2 ∧ qsum a.ai_score_components ≥ 0.25 then
      (VoiceClassification.ai_generated,
        min 0.95 (0.5 + qsum a.ai_score_components
          / (qsum a.ai_score_components + qsum a.human_score_components + 0.1) * 0.45) * 0.9)
    else if a.ai_indicators.length ≥ 1 ∧ qsum a.ai_score_components ≥ 0.15 then
      (VoiceClassification.uncertain,
        0.5 + (qsum a.ai_score_components - qsum a.human_score_components) * 0.3)
    else
      (VoiceClassification.uncertain, 0.5)
  else if qsum a.human_score_components > qsum a.ai_score_components then
    if a.human_indicators.length ≥ 3 ∧ qsum a.human_score_components ≥ 0.3 then
      (VoiceClassification.human,
        min 0.95 (0.5 + qsum a.human_score_components
          / (qsum a.ai_score_components + qsum a.human_score_components + 0.1) * 0.45))
    else if a.human_indicators.length ≥ 2 ∧ qsum a.human_score_components ≥ 0.2 then
      (VoiceClassification.human,
        min 0.95 (0.5 + qsum a.human_score_components
          / (qsum a.ai_score_components + qsum a.human_score_components + 0.1) * 0.45) * 0.9)
    else
      (VoiceClassification.uncertain,
        0.5 + (qsum a.human_score_components - qsum a.ai_score_components) * 0.3)
  else
    (VoiceClassification.uncertain, 0.5)

/-!
Specification-side formulas (section of the spec on score aggregation), used
to compare the code against the spec words of claim C1.
-/

/-- Sum of confidence*weight over the signals tagged with a category. -/
def catRaw : List FraudSignal → String → ℚ
  | [], _ => 0
  | s :: t, c => (if s.category = c then s.confidence * s.weight else 0) + catRaw t c

/-- Summed weight of the signals tagged with a category. -/
def catW : List FraudSignal → String → ℚ
  | [], _ => 0
  | s :: t, c => (if s.category = c then s.weight else 0) + catW t c

/-- Spec formula for a category score: normalized weighted mean with the
divisor floored at 1, clipped to [0, 1]. -/
def specCategoryScore (signals : List FraudSignal) (cat : String) : ℚ :=
  max 0 (min (catRaw signals cat / max (catW signals cat) 1) 1)

/-- Spec formula: the maximum of the four non-general category scores. -/
def specMaxCategory (signals : List FraudSignal) : ℚ :=
  max (max (max (specCategoryScore signals "spam") (specCategoryScore signals "fraud"))
        (specCategoryScore signals "phishing"))
    (specCategoryScore signals "robocall")

/-- Spec formula: the number of categories with score strictly above 0.3. -/
def specActive (signals : List FraudSignal) : ℕ :=
  (if specCategoryScore signals "spam" > 0.3 then 1 else 0)
    + (if specCategoryScore signals "fraud" > 0.3 then 1 else 0)
    + (if specCategoryScore signals "phishing" > 0.3 then 1 else 0)
    + (if specCategoryScore signals "robocall" > 0.3 then 1 else 0)
    + (if specCategoryScore signals "general" > 0.3 then 1 else 0)

/-- Spec formula: category_boost = 1 + 0.1*(active-1) when more than one
category is active, else 1. -/
def specBoost (signals : List FraudSignal) : ℚ :=
  if specActive signals > 1 then 1 + ((specActive signals : ℚ) - 1) * 0.1 else 1

/-- Spec formula: general_modifier = 1 + 0.2*general_score. -/
def specGeneralModifier (signals : List FraudSignal) : ℚ :=
  1 + specCategoryScore signals "general" * 0.2

/-- Spec formula: overall = min(100, max_category_score * category_boost *
general_modifier * 100). -/
def specOverall (signals : List FraudSignal) : ℚ :=
  min 100 (specMaxCategory signals * specBoost signals * specGeneralModifier signals * 100)

/-- Mean confidence of a nonempty signal list (spec formula for confidence). -/
def meanConf (signals : List FraudSignal) : ℚ :=
  sumConf signals / (signals.length : ℚ)

/-!
Helper definitions used by the proofs below.
-/

/-- The normalized score the code assigns to one category: the per-category
sums fed through the normalization step. -/
def nscore (signals : List FraudSignal) (cat : String) : ℚ :=
  normalizeCat (catRaw signals cat) (catW signals cat)

/-- The number of active categories as a function of the five normalized
category scores. -/
def activeFrom (s f p r g : ℚ) : ℕ :=
  (if s > 0.3 then 1 else 0) + (if f > 0.3 then 1 else 0)
    + (if p > 0.3 then 1 else 0) + (if r > 0.3 then 1 else 0)
    + (if g > 0.3 then 1 else 0)

/-- The category boost as a function of the five normalized category scores. -/
def boostFrom (s f p r g : ℚ) : ℚ :=
  if activeFrom s f p r g > 1 then 1 + ((activeFrom s f p r g : ℚ) - 1) * 0.1 else 1

/-- The overall score of _calculate_scores as a function of the five
normalized category scores. -/
def overallFrom (s f p r g : ℚ) : ℚ :=
  round1 (min (max (max (max s f) p) r * boostFrom s f p r g * (1 + g * 0.2) * 100) 100)

/-- Shape invariant of every signal the four extractors can emit: a known
category, confidence at least 0.6 outside the general category, weight at
least 1, and one of the four signal types. -/
def goodSignal (s : FraudSignal) : Prop :=
  s.category ∈ theFiveCategories
    ∧ 0 ≤ s.confidence
    ∧ 1 ≤ s.weight
    ∧ (s.category ≠ "general" → 0.6 ≤ s.confidence)
    ∧ (s.signalType = "keyword" ∨ s.signalType = "pattern"
        ∨ s.signalType = "acoustic" ∨ s.signalType = "behavioral")

instance (s : FraudSignal) : Decidable (goodSignal s) := by
  unfold goodSignal; infer_instance

/-!
Bridge lemmas: the signal loop of _calculate_scores computes exactly the
per-category sums of the spec formulas.
-/

theorem catRaw_append (a b : List FraudSignal) (c : String) :
    catRaw (a ++ b) c = catRaw a c + catRaw b c := by
  induction a with
  | nil => simp [catRaw]
  | cons s t ih => simp [catRaw, ih]; ring

theorem catW_append (a b : List FraudSignal) (c : String) :
    catW (a ++ b) c = catW a c + catW b c := by
  induction a with
  | nil => simp [catW]
  | cons s t ih => simp [catW, ih]; ring

theorem catDict_go (l : List FraudSignal) (c : String)
    (hc : c ∈ theFiveCategories) :
    ∀ init : String → ℚ × ℚ,
      (l.foldl dictStep init) c = ((init c).1 + catRaw l c, (init c).2 + catW l c) := by
  induction l with
  | nil => intro init; simp [catRaw, catW]
  | cons s t ih =>
    intro init
    rw [List.foldl_cons, ih]
    by_cases hmem : s.category ∈ theFiveCategories
    · by_cases heq : c = s.category
      · subst heq
        simp only [dictStep, if_pos hmem, if_pos rfl, catRaw, catW, Prod.mk.injEq,
          eq_self_iff_true, if_true]
        constructor <;> ring
      · have hne : s.category ≠ c := fun h => heq h.symm
        simp only [dictStep, if_pos hmem, if_neg heq, catRaw, catW, if_neg hne, Prod.mk.injEq]
        constructor <;> ring
    · have hne : s.category ≠ c := fun h => hmem (h ▸ hc)
      simp only [dictStep, if_neg hmem, catRaw, catW, if_neg hne, Prod.mk.injEq]
      constructor <;> ring

theorem catDict_eq (l : List FraudSignal) (c : String) (hc : c ∈ theFiveCategories) :
    catDict l c = (catRaw l c, catW l c) := by
  unfold catDict
  rw [catDict_go l c hc]
  simp

/-- _calculate_scores in terms of the per-category closed formulas. -/
theorem calculateScores_eq (l : List FraudSignal) :
    calculateScores l =
      ⟨nscore l "spam", nscore l "fraud", nscore l "phishing", nscore l "robocall",
       overallFrom (nscore l "spam") (nscore l "fraud") (nscore l "phishing")
         (nscore l "robocall") (nscore l "general")⟩ := by
  have hs := catDict_eq l "spam" (by simp [theFiveCategories])
  have hf := catDict_eq l "fraud" (by simp [theFiveCategories])
  have hp := catDict_eq l "phishing" (by simp [theFiveCategories])
  have hr := catDict_eq l "robocall" (by simp [theFiveCategories])
  have hg := catDict_eq l "general" (by simp [theFiveCategories])
  simp only [calculateScores, overallFrom, boostFrom, activeFrom, nscore, hs, hf, hp, hr, hg]

/-!
Elementary facts about the per-category sums, normalization, rounding and the
overall-score formula.
-/

theorem catRaw_nonneg (l : List FraudSignal) (c : String)
    (h : ∀ s ∈ l, 0 ≤ s.confidence ∧ 0 ≤ s.weight) : 0 ≤ catRaw l c := by
  induction l with
  | nil => simp [catRaw]
  | cons s t ih =>
    have hs := h s (List.mem_cons_self s t)
    have ht := ih fun x hx => h x (List.mem_cons_of_mem s hx)
    unfold catRaw
    have hh : (0 : ℚ) ≤ if s.category = c then s.confidence * s.weight else 0 := by
      split_ifs
      · exact mul_nonneg hs.1 hs.2
      · exact le_refl 0
    linarith

theorem catW_nonneg (l : List FraudSignal) (c : String)
    (h : ∀ s ∈ l, 0 ≤ s.weight) : 0 ≤ catW l c := by
  induction l with
  | nil => simp [catW]
  | cons s t ih =>
    have hs := h s (List.mem_cons_self s t)
    have ht := ih fun x hx => h x (List.mem_cons_of_mem s hx)
    unfold catW
    have hh : (0 : ℚ) ≤ if s.category = c then s.weight else 0 := by
      split_ifs
      · exact hs
      · exact le_refl 0
    linarith

theorem catRaw_of_catW_zero (l : List FraudSignal) (c : String)
    (h : ∀ s ∈ l, 0 ≤ s.confidence ∧ 0 ≤ s.weight)
    (hw : catW l c = 0) : catRaw l c = 0 := by
  induction l with
  | nil => simp [catRaw]
  | cons s t ih =>
    have hs := h s (List.mem_cons_self s t)
    have ht : ∀ x ∈ t, 0 ≤ x.confidence ∧ 0 ≤ x.weight :=
      fun x hx => h x (List.mem_cons_of_mem s hx)
    have htw : 0 ≤ catW t c := catW_nonneg t c fun x hx => (ht x hx).2
    have hh : (0 : ℚ) ≤ if s.category = c then s.weight else 0 := by
      split_ifs
      · exact hs.2
      · exact le_refl 0
    unfold catW at hw
    have h1 : (if s.category = c then s.weight else 0) = 0 := by linarith
    have h2 : catW t c = 0 := by linarith
    unfold catRaw
    rw [ih ht h2]
    split_ifs at h1 ⊢ with hcat
    · rw [h1, mul_zero, add_zero]
    · rw [add_zero]

theorem catW_ge_one (l : List FraudSignal) (c : String)
    (h : ∀ s ∈ l, 0 ≤ s.weight)
    (hex : ∃ s ∈ l, s.category = c ∧ 1 ≤ s.weight) : 1 ≤ catW l c := by
  induction l with
  | nil => obtain ⟨s, hs, -⟩ := hex; simp at hs
  | cons s t ih =>
    have ht : ∀ x ∈ t, 0 ≤ x.weight := fun x hx => h x (List.mem_cons_of_mem s hx)
    have htw : 0 ≤ catW t c := catW_nonneg t c ht
    obtain ⟨x, hx, hxc, hxw⟩ := hex
    rcases List.mem_cons.1 hx with rfl | hxt
    · unfold catW
      rw [if_pos hxc]
      linarith
    · have h1 := ih ht ⟨x, hxt, hxc, hxw⟩
      have hh : (0 : ℚ) ≤ if s.category = c then s.weight else 0 := by
        split_ifs
        · exact h s (List.mem_cons_self s t)
        · exact le_refl 0
      unfold catW
      linarith

theorem catRaw_ge_mul (l : List FraudSignal) (c : String)
    (h : ∀ s ∈ l, s.category = c → 0.6 ≤ s.confidence ∧ 0 ≤ s.weight) :
    0.6 * catW l c ≤ catRaw l c := by
  induction l with
  | nil => simp [catRaw, catW]
  | cons s t ih =>
    have ht := ih fun x hx hxc => h x (List.mem_cons_of_mem s hx) hxc
    unfold catRaw catW
    have hh : 0.6 * (if s.category = c then s.weight else 0)
        ≤ (if s.category = c then s.confidence * s.weight else 0) := by
      split_ifs with hcat
      · exact mul_le_mul_of_nonneg_right (h s (List.mem_cons_self s t) hcat).1
          (h s (List.mem_cons_self s t) hcat).2
      · norm_num
    nlinarith [hh, ht]

theorem catRaw_of_none (l : List FraudSignal) (c : String)
    (h : ∀ s ∈ l, s.category ≠ c) : catRaw l c = 0 := by
  induction l with
  | nil => simp [catRaw]
  | cons s t ih =>
    unfold catRaw
    rw [if_neg (h s (List.mem_cons_self s t)),
      ih fun x hx => h x (List.mem_cons_of_mem s hx)]
    norm_num

theorem catW_of_none (l : List FraudSignal) (c : String)
    (h : ∀ s ∈ l, s.category ≠ c) : catW l c = 0 := by
  induction l with
  | nil => simp [catW]
  | cons s t ih =>
    unfold catW
    rw [if_neg (h s (List.mem_cons_self s t)),
      ih fun x hx => h x (List.mem_cons_of_mem s hx)]
    norm_num

theorem normalizeCat_nonneg (r w : ℚ) (hr : 0 ≤ r) : 0 ≤ normalizeCat r w := by
  unfold normalizeCat
  split_ifs with h
  · refine le_min (div_nonneg hr ?_) zero_le_one
    exact le_trans zero_le_one (le_max_right w 1)
  · exact hr

theorem nscore_nonneg (l : List FraudSignal) (c : String)
    (h : ∀ s ∈ l, 0 ≤ s.confidence ∧ 0 ≤ s.weight) : 0 ≤ nscore l c :=
  normalizeCat_nonneg _ _ (catRaw_nonneg l c h)

theorem nscore_of_none (l : List FraudSignal) (c : String)
    (h : ∀ s ∈ l, s.category ≠ c) : nscore l c = 0 := by
  unfold nscore
  rw [catRaw_of_none l c h, catW_of_none l c h]
  unfold normalizeCat
  norm_num

theorem nscore_ge_threshold (l : List FraudSignal) (c : String)
    (hgood : ∀ s ∈ l, goodSignal s) (hc4 : c ≠ "general")
    (hex : ∃ s ∈ l, s.category = c) : 0.6 ≤ nscore l c := by
  have hwpos : ∀ s ∈ l, 0 ≤ s.weight :=
    fun s hs => le_trans zero_le_one (hgood s hs).2.2.1
  obtain ⟨x, hx, hxc⟩ := hex
  have hW1 : 1 ≤ catW l c :=
    catW_ge_one l c hwpos ⟨x, hx, hxc, (hgood x hx).2.2.1⟩
  have hRW : 0.6 * catW l c ≤ catRaw l c := by
    refine catRaw_ge_mul l c fun s hs hsc => ?_
    refine ⟨(hgood s hs).2.2.2.1 ?_, le_trans zero_le_one (hgood s hs).2.2.1⟩
    rw [hsc]; exact hc4
  have hWpos : (0 : ℚ) < catW l c := lt_of_lt_of_le one_pos hW1
  unfold nscore normalizeCat
  rw [if_pos hWpos, max_eq_left hW1]
  refine le_min ?_ (by norm_num)
  rw [le_div_iff₀ hWpos]
  linarith

theorem round1_mono {x y : ℚ} (h : x ≤ y) : round1 x ≤ round1 y := by
  unfold round1
  have h10 : round (x * 10) ≤ round (y * 10) := by
    rw [round_eq, round_eq]
    exact Int.floor_mono (by linarith)
  have hc : ((round (x * 10) : ℤ) : ℚ) ≤ ((round (y * 10) : ℤ) : ℚ) := by
    exact_mod_cast h10
  linarith

theorem round1_zero : round1 0 = 0 := by
  unfold round1
  norm_num [round_zero]

theorem round1_sixty : round1 60 = 60 := by
  unfold round1
  have h : (60 : ℚ) * 10 = ((600 : ℕ) : ℚ) := by norm_num
  rw [h, round_natCast]
  norm_num

theorem boostFrom_ge_one (s f p r g : ℚ) : 1 ≤ boostFrom s f p r g := by
  unfold boostFrom
  split_ifs with h
  · have h2 : (2 : ℕ) ≤ activeFrom s f p r g := h
    have h2q : (2 : ℚ) ≤ (activeFrom s f p r g : ℚ) := by exact_mod_cast h2
    nlinarith
  · exact le_refl 1

theorem activeFrom_mono {s f p r g s' f' p' r' g' : ℚ}
    (hs : s ≤ s') (hf : f ≤ f') (hp : p ≤ p') (hr : r ≤ r') (hg : g ≤ g') :
    activeFrom s f p r g ≤ activeFrom s' f' p' r' g' := by
  have ind : ∀ x y : ℚ, x ≤ y →
      (if x > 0.3 then (1 : ℕ) else 0) ≤ (if y > 0.3 then 1 else 0) := by
    intro x y hxy
    split_ifs with h1 h2
    · exact le_refl 1
    · exact absurd (lt_of_lt_of_le h1 hxy) h2
    · exact Nat.zero_le 1
    · exact le_refl 0
  unfold activeFrom
  exact Nat.add_le_add (Nat.add_le_add (Nat.add_le_add (Nat.add_le_add
    (ind s s' hs) (ind f f' hf)) (ind p p' hp)) (ind r r' hr)) (ind g g' hg)

theorem boostFrom_mono {s f p r g s' f' p' r' g' : ℚ}
    (hs : s ≤ s') (hf : f ≤ f') (hp : p ≤ p') (hr : r ≤ r') (hg : g ≤ g') :
    boostFrom s f p r g ≤ boostFrom s' f' p' r' g' := by
  have ha := activeFrom_mono hs hf hp hr hg
  unfold boostFrom
  split_ifs with h1 h2
  · have haq : ((activeFrom s f p r g : ℕ) : ℚ) ≤ (activeFrom s' f' p' r' g' : ℚ) := by
      exact_mod_cast ha
    nlinarith
  · exact absurd (lt_of_lt_of_le h1 ha) h2
  · have h2' : (2 : ℕ) ≤ activeFrom s' f' p' r' g' := by assumption
    have h2q : (2 : ℚ) ≤ (activeFrom s' f' p' r' g' : ℚ) := by exact_mod_cast h2'
    nlinarith
  · exact le_refl 1

theorem overallFrom_mono {s f p r g s' f' p' r' : ℚ}
    (hs : s ≤ s') (hf : f ≤ f') (hp : p ≤ p') (hr : r ≤ r')
    (h0 : 0 ≤ s) (h0g : 0 ≤ g) :
    overallFrom s f p r g ≤ overallFrom s' f' p' r' g := by
  have hm : max (max (max s f) p) r ≤ max (max (max s' f') p') r' :=
    max_le_max (max_le_max (max_le_max hs hf) hp) hr
  have hm0 : (0 : ℚ) ≤ max (max (max s f) p) r :=
    le_trans h0 (le_trans (le_max_left s f)
      (le_trans (le_max_left (max s f) p) (le_max_left (max (max s f) p) r)))
  have hm0' : (0 : ℚ) ≤ max (max (max s' f') p') r' := le_trans hm0 hm
  have hB : boostFrom s f p r g ≤ boostFrom s' f' p' r' g :=
    boostFrom_mono hs hf hp hr (le_refl g)
  have hB1 : (1 : ℚ) ≤ boostFrom s f p r g := boostFrom_ge_one s f p r g
  have hG : (0 : ℚ) ≤ 1 + g * 0.2 := by nlinarith
  have hmb : max (max (max s f) p) r * boostFrom s f p r g
      ≤ max (max (max s' f') p') r' * boostFrom s' f' p' r' g :=
    mul_le_mul hm hB (le_trans zero_le_one hB1) hm0'
  have hmbg : max (max (max s f) p) r * boostFrom s f p r g * (1 + g * 0.2)
      ≤ max (max (max s' f') p') r' * boostFrom s' f' p' r' g * (1 + g * 0.2) :=
    mul_le_mul_of_nonneg_right hmb hG
  have hfin : max (max (max s f) p) r * boostFrom s f p r g * (1 + g * 0.2) * 100
      ≤ max (max (max s' f') p') r' * boostFrom s' f' p' r' g * (1 + g * 0.2) * 100 := by
    nlinarith
  unfold overallFrom
  exact round1_mono (min_le_min hfin (le_refl 100))

theorem overallFrom_ge_sixty {s f p r g : ℚ}
    (h : 0.6 ≤ max (max (max s f) p) r) (hg : 0 ≤ g) :
    60 ≤ overallFrom s f p r g := by
  have hB1 : (1 : ℚ) ≤ boostFrom s f p r g := boostFrom_ge_one s f p r g
  have hG : (1 : ℚ) ≤ 1 + g * 0.2 := by nlinarith
  have hm0 : (0 : ℚ) ≤ max (max (max s f) p) r := le_trans (by norm_num) h
  have step1 : (0.6 : ℚ) * 1 ≤ max (max (max s f) p) r * boostFrom s f p r g :=
    mul_le_mul h hB1 zero_le_one hm0
  have step2 : (0.6 : ℚ) * 1 ≤ max (max (max s f) p) r * boostFrom s f p r g * (1 + g * 0.2) :=
    mul_le_mul (by linarith) hG zero_le_one (by linarith)
  have h1 : (60 : ℚ) ≤ max (max (max s f) p) r * boostFrom s f p r g * (1 + g * 0.2) * 100 := by
    linarith
  unfold overallFrom
  calc (60 : ℚ) = round1 60 := round1_sixty.symm
    _ ≤ _ := round1_mono (le_min h1 (by norm_num))

theorem overallFrom_zero (g : ℚ) : overallFrom 0 0 0 0 g = 0 := by
  unfold overallFrom
  have hm : max (max (max (0 : ℚ) 0) 0) 0 = 0 := by simp
  rw [hm, zero_mul, zero_mul, zero_mul, min_eq_left (by norm_num : (0 : ℚ) ≤ 100),
    round1_zero]

/-!
Structural facts about the signals each extractor can emit.
-/

theorem fraudKeywords_good : ∀ p ∈ fraudKeywords, ∀ q ∈ p.2, ∀ kw ∈ q.2,
    goodSignal (kwSignal p.1 q.1 kw) := by
  with_unfolding_all decide

theorem hindiKeywords_cat : ∀ p ∈ hindiKeywords, p.1 = "fraud" := by
  decide

theorem upiKeywords_sev : ∀ p ∈ upiFraudKeywords, p.1 = "high" ∨ p.1 = "medium" := by
  decide

theorem good_mainKeywordSignals (text : String) :
    ∀ s ∈ mainKeywordSignals text, goodSignal s := by
  intro s hs
  simp only [mainKeywordSignals, List.mem_flatMap, List.mem_map, List.mem_filter] at hs
  obtain ⟨p, hp, q, hq, kw, ⟨hkw, -⟩, rfl⟩ := hs
  exact fraudKeywords_good p hp q hq kw hkw

theorem good_hindiSignals (text : String) :
    ∀ s ∈ hindiSignals text, goodSignal s := by
  intro s hs
  simp only [hindiSignals, List.mem_flatMap, List.mem_map, List.mem_filter] at hs
  obtain ⟨p, hp, kw, ⟨hkw, -⟩, rfl⟩ := hs
  have hcat := hindiKeywords_cat p hp
  exact ⟨by simp [theFiveCategories, hcat], by norm_num, by norm_num,
    fun _ => by norm_num, Or.inl rfl⟩

theorem good_upiSignals (text : String) :
    ∀ s ∈ upiSignals text, goodSignal s := by
  intro s hs
  simp only [upiSignals, List.mem_flatMap, List.mem_map, List.mem_filter] at hs
  obtain ⟨p, hp, kw, ⟨hkw, -⟩, rfl⟩ := hs
  refine ⟨by simp [theFiveCategories], ?_, ?_, fun _ => ?_, Or.inl rfl⟩ <;>
    simp only <;> split_ifs <;> norm_num

theorem good_analyzePatterns (u t r b : List String) :
    ∀ s ∈ analyzePatterns u t r b, goodSignal s := by
  intro s hs
  have hnq : ∀ n : ℕ, (0 : ℚ) ≤ (n : ℚ) * 0.1 :=
    fun n => mul_nonneg (Nat.cast_nonneg n) (by norm_num)
  unfold analyzePatterns at hs
  simp only [List.mem_append] at hs
  rcases hs with ((h1 | h2) | h3) | h4
  · split_ifs at h1
    · simp at h1
    · simp only [List.mem_singleton] at h1
      subst h1
      refine ⟨by simp [theFiveCategories, urgencySignal], ?_, by norm_num [urgencySignal],
        fun hgen => absurd rfl hgen, Or.inr (Or.inl rfl)⟩
      exact le_min (by linarith [hnq u.length]) (by norm_num)
  · split_ifs at h2
    · simp at h2
    · simp only [List.mem_singleton] at h2
      subst h2
      have hconf : (0.6 : ℚ) ≤ min ((0.6 : ℚ) + (t.length : ℚ) * 0.1) 0.95 :=
        le_min (by linarith [hnq t.length]) (by norm_num)
      exact ⟨by simp [theFiveCategories, threatSignal], le_trans (by norm_num) hconf,
        by norm_num [threatSignal], fun _ => hconf, Or.inr (Or.inl rfl)⟩
  · split_ifs at h3
    · simp at h3
    · simp only [List.mem_singleton] at h3
      subst h3
      exact ⟨by simp [theFiveCategories, requestSignal], by norm_num [requestSignal],
        by norm_num [requestSignal], fun _ => by norm_num [requestSignal], Or.inr (Or.inl rfl)⟩
  · split_ifs at h4
    · simp at h4
    · simp only [List.mem_singleton] at h4
      subst h4
      exact ⟨by simp [theFiveCategories, robocallSignal], by norm_num [robocallSignal],
        by norm_num [robocallSignal], fun _ => by norm_num [robocallSignal], Or.inr (Or.inl rfl)⟩

theorem good_analyzeAcoustic (f : AcousticFeatures) :
    ∀ s ∈ analyzeAcoustic f, goodSignal s := by
  intro s hs
  unfold analyzeAcoustic at hs
  simp only [List.mem_append] at hs
  rcases hs with ((h1 | h2) | h3) | h4
  · split_ifs at h1
    · simp only [List.mem_singleton] at h1
      subst h1
      exact ⟨by simp [theFiveCategories], by norm_num, by norm_num,
        fun hgen => absurd rfl hgen, Or.inr (Or.inr (Or.inl rfl))⟩
    · simp at h1
  · split_ifs at h2 with hc
    · simp only [List.mem_singleton] at h2
      subst h2
      exact ⟨by simp [theFiveCategories], by linarith, by norm_num,
        fun hgen => absurd rfl hgen, Or.inr (Or.inr (Or.inl rfl))⟩
    · simp at h2
  · split_ifs at h3 with hc
    · simp only [List.mem_singleton] at h3
      subst h3
      exact ⟨by simp [theFiveCategories], by linarith, by norm_num,
        fun _ => le_of_lt hc, Or.inr (Or.inr (Or.inl rfl))⟩
    · simp at h3
  · split_ifs at h4
    · simp only [List.mem_singleton] at h4
      subst h4
      exact ⟨by simp [theFiveCategories], by norm_num, by norm_num,
        fun _ => by norm_num, Or.inr (Or.inr (Or.inl rfl))⟩
    · simp at h4

theorem good_analyzeBehavioral (d : BehavioralData) :
    ∀ s ∈ analyzeBehavioral d, goodSignal s := by
  intro s hs
  unfold analyzeBehavioral at hs
  simp only [List.mem_append] at hs
  rcases hs with (h1 | h2) | h3
  · split_ifs at h1
    · simp only [List.mem_singleton] at h1
      subst h1
      exact ⟨by simp [theFiveCategories], by norm_num, by norm_num,
        fun hgen => absurd rfl hgen, Or.inr (Or.inr (Or.inr rfl))⟩
    · simp at h1
  · split_ifs at h2 with hc
    · simp only [List.mem_singleton] at h2
      subst h2
      rcases hd : d.pressure_score with - | v
      · rw [hd] at hc
        norm_num at hc
      · rw [hd] at hc
        simp only [Option.getD_some] at hc
        refine ⟨by simp [theFiveCategories], ?_, by norm_num, fun _ => ?_,
          Or.inr (Or.inr (Or.inr rfl))⟩ <;>
          simp only [hd, Option.getD_some] <;> linarith
    · simp at h2
  · split_ifs at h3
    · simp only [List.mem_singleton] at h3
      subst h3
      exact ⟨by simp [theFiveCategories], by norm_num, by norm_num,
        fun _ => by norm_num, Or.inr (Or.inr (Or.inr rfl))⟩
    · simp at h3

theorem good_allSignals (text : String) (pats : PatternMatches)
    (ac : Option AcousticFeatures) (beh : Option BehavioralData) :
    ∀ s ∈ allSignals text pats ac beh, goodSignal s := by
  intro s hs
  unfold allSignals analyzeLinguistic at hs
  simp only [List.mem_append] at hs
  rcases hs with ((((h1 | h2) | h3) | h4) | h5) | h6
  · exact good_mainKeywordSignals text s h1
  · exact good_hindiSignals text s h2
  · exact good_upiSignals text s h3
  · rcases ac with - | f
    · simp at h4
    · exact good_analyzeAcoustic f s h4
  · rcases beh with - | d
    · simp at h5
    · exact good_analyzeBehavioral d s h5
  · exact good_analyzePatterns pats.urgency pats.threat pats.request pats.robocall s h6

/-!
Signal types per extractor, and facts about classification and confidence.
-/

theorem type_analyzeLinguistic (text : String) :
    ∀ s ∈ analyzeLinguistic text, s.signalType = "keyword" := by
  intro s hs
  unfold analyzeLinguistic at hs
  simp only [List.mem_append] at hs
  rcases hs with (h | h) | h
  · simp only [mainKeywordSignals, List.mem_flatMap, List.mem_map, List.mem_filter] at h
    obtain ⟨p, -, q, -, kw, -, rfl⟩ := h
    rfl
  · simp only [hindiSignals, List.mem_flatMap, List.mem_map, List.mem_filter] at h
    obtain ⟨p, -, kw, -, rfl⟩ := h
    rfl
  · simp only [upiSignals, List.mem_flatMap, List.mem_map, List.mem_filter] at h
    obtain ⟨p, -, kw, -, rfl⟩ := h
    rfl

theorem type_analyzePatterns (u t r b : List String) :
    ∀ s ∈ analyzePatterns u t r b, s.signalType = "pattern" := by
  intro s hs
  unfold analyzePatterns at hs
  simp only [List.mem_append] at hs
  rcases hs with ((h | h) | h) | h <;> split_ifs at h <;> simp at h <;> subst h <;> rfl

theorem type_analyzeAcoustic (f : AcousticFeatures) :
    ∀ s ∈ analyzeAcoustic f, s.signalType = "acoustic" := by
  intro s hs
  unfold analyzeAcoustic at hs
  simp only [List.mem_append] at hs
  rcases hs with ((h | h) | h) | h <;> split_ifs at h <;> simp at h <;> subst h <;> rfl

theorem type_analyzeBehavioral (d : BehavioralData) :
    ∀ s ∈ analyzeBehavioral d, s.signalType = "behavioral" := by
  intro s hs
  unfold analyzeBehavioral at hs
  simp only [List.mem_append] at hs
  rcases hs with (h | h) | h <;> split_ifs at h <;> simp at h <;> subst h <;> rfl

theorem argmax4_fst (a b c d : ℚ) :
    (argmax4 a b c d).1 = "spam" ∨ (argmax4 a b c d).1 = "fraud" ∨
      (argmax4 a b c d).1 = "phishing" ∨ (argmax4 a b c d).1 = "robocall" := by
  simp only [argmax4]
  split_ifs <;> simp

theorem determineClassification_ne_safe (sc : Scores)
    (h : 50 ≤ sc.overall) : determineClassification sc ≠ "safe" := by
  unfold determineClassification
  rw [if_neg (by linarith : ¬ sc.overall < 30)]
  by_cases h2 : (argmax4 sc.spam sc.fraud sc.phishing sc.robocall).2
      ≥ thresholdFor (argmax4 sc.spam sc.fraud sc.phishing sc.robocall).1
  · rw [if_pos h2]
    rcases argmax4_fst sc.spam sc.fraud sc.phishing sc.robocall with hx | hx | hx | hx <;>
      rw [hx] <;> decide
  · rw [if_neg h2, if_pos (by linarith : sc.overall ≥ 50)]
    decide

theorem determineClassification_safe_lt_fifty (sc : Scores)
    (h : determineClassification sc = "safe") : sc.overall < 50 := by
  by_contra hko
  push_neg at hko
  exact determineClassification_ne_safe sc hko h

theorem detect_def (text : String) (pats : PatternMatches)
    (ac : Option AcousticFeatures) (beh : Option BehavioralData) :
    detect text pats ac beh =
      ⟨determineClassification (calculateScores (allSignals text pats ac beh)),
       (calculateScores (allSignals text pats ac beh)).overall,
       (calculateScores (allSignals text pats ac beh)).spam,
       (calculateScores (allSignals text pats ac beh)).fraud,
       (calculateScores (allSignals text pats ac beh)).phishing,
       (calculateScores (allSignals text pats ac beh)).robocall,
       (allSignals text pats ac beh).map FraudSignal.toOut,
       calculateConfidence (allSignals text pats ac beh)⟩ := rfl

theorem sumConf_append (a b : List FraudSignal) :
    sumConf (a ++ b) = sumConf a + sumConf b := by
  induction a with
  | nil => simp [sumConf]
  | cons s t ih => simp [sumConf, ih]; ring

/-!
Facts used for the keyword-monotonicity analysis (claim C6).
-/

theorem kwSignal_high_conf (c kw : String) : (kwSignal c "high" kw).confidence = 0.9 := by
  simp [kwSignal]

theorem kwSignal_high_weight (c kw : String) : (kwSignal c "high" kw).weight = 1.5 := by
  simp [kwSignal]

theorem kwSignal_high_cat (c kw : String) : (kwSignal c "high" kw).category = c := rfl

theorem catRaw_insert (l1 l2 : List FraudSignal) (x : FraudSignal) (c : String) :
    catRaw (l1 ++ x :: l2) c
      = catRaw (l1 ++ l2) c + (if x.category = c then x.confidence * x.weight else 0) := by
  have hcons : catRaw (x :: l2) c
      = (if x.category = c then x.confidence * x.weight else 0) + catRaw l2 c := rfl
  rw [catRaw_append, catRaw_append, hcons]
  ring

theorem catW_insert (l1 l2 : List FraudSignal) (x : FraudSignal) (c : String) :
    catW (l1 ++ x :: l2) c
      = catW (l1 ++ l2) c + (if x.category = c then x.weight else 0) := by
  have hcons : catW (x :: l2) c
      = (if x.category = c then x.weight else 0) + catW l2 c := rfl
  rw [catW_append, catW_append, hcons]
  ring

theorem nscore_insert_ne (l1 l2 : List FraudSignal) (x : FraudSignal) (c : String)
    (hne : x.category ≠ c) :
    nscore (l1 ++ x :: l2) c = nscore (l1 ++ l2) c := by
  unfold nscore
  rw [catRaw_insert, catW_insert, if_neg hne, if_neg hne, add_zero, add_zero]

theorem normalizeCat_grow (r w : ℚ) (hr : 0 ≤ r) (hw : 0 ≤ w)
    (hb : normalizeCat r w ≤ 0.9) :
    normalizeCat r w ≤ normalizeCat (r + 0.9 * 1.5) (w + 1.5) := by
  unfold normalizeCat at hb ⊢
  have hw' : (0 : ℚ) < w + 1.5 := by linarith
  rw [if_pos hw', max_eq_left (by linarith : (1 : ℚ) ≤ w + 1.5)]
  by_cases h : w > 0
  · rw [if_pos h] at hb ⊢
    have hm1 : (1 : ℚ) ≤ max w 1 := le_max_right w 1
    have hmpos : (0 : ℚ) < max w 1 := lt_of_lt_of_le one_pos hm1
    have hra : r / max w 1 ≤ 0.9 := by
      rcases min_le_iff.1 hb with h' | h'
      · exact h'
      · norm_num at h'
    refine le_min (le_trans (min_le_left _ _) ?_) (min_le_right _ _)
    rw [div_le_div_iff₀ hmpos hw']
    have hwm : w ≤ max w 1 := le_max_left w 1
    have hrm : r ≤ 0.9 * max w 1 := by
      rw [div_le_iff₀ hmpos] at hra
      linarith
    have h1 : r * w ≤ r * max w 1 := mul_le_mul_of_nonneg_left hwm hr
    nlinarith
  · rw [if_neg h] at hb ⊢
    have hw0 : w = 0 := le_antisymm (not_lt.1 h) hw
    refine le_min ?_ (by linarith)
    rw [le_div_iff₀ hw']
    rw [hw0]
    nlinarith

/-!
Field accessors of calculateScores and detect.
-/

theorem calculateScores_spam (l : List FraudSignal) :
    (calculateScores l).spam = nscore l "spam" := by rw [calculateScores_eq]

theorem calculateScores_fraud (l : List FraudSignal) :
    (calculateScores l).fraud = nscore l "fraud" := by rw [calculateScores_eq]

theorem calculateScores_phishing (l : List FraudSignal) :
    (calculateScores l).phishing = nscore l "phishing" := by rw [calculateScores_eq]

theorem calculateScores_robocall (l : List FraudSignal) :
    (calculateScores l).robocall = nscore l "robocall" := by rw [calculateScores_eq]

theorem calculateScores_overall (l : List FraudSignal) :
    (calculateScores l).overall = overallFrom (nscore l "spam") (nscore l "fraud")
      (nscore l "phishing") (nscore l "robocall") (nscore l "general") := by
  rw [calculateScores_eq]

theorem detect_classification (text : String) (pats : PatternMatches)
    (ac : Option AcousticFeatures) (beh : Option BehavioralData) :
    (detect text pats ac beh).classification
      = determineClassification (calculateScores (allSignals text pats ac beh)) := rfl

theorem detect_risk (text : String) (pats : PatternMatches)
    (ac : Option AcousticFeatures) (beh : Option BehavioralData) :
    (detect text pats ac beh).risk_score
      = (calculateScores (allSignals text pats ac beh)).overall := rfl

theorem detect_spam (text : String) (pats : PatternMatches)
    (ac : Option AcousticFeatures) (beh : Option BehavioralData) :
    (detect text pats ac beh).spam_score
      = (calculateScores (allSignals text pats ac beh)).spam := rfl

theorem detect_fraud (text : String) (pats : PatternMatches)
    (ac : Option AcousticFeatures) (beh : Option BehavioralData) :
    (detect text pats ac beh).fraud_score
      = (calculateScores (allSignals text pats ac beh)).fraud := rfl

theorem detect_phishing (text : String) (pats : PatternMatches)
    (ac : Option AcousticFeatures) (beh : Option BehavioralData) :
    (detect text pats ac beh).phishing_score
      = (calculateScores (allSignals text pats ac beh)).phishing := rfl

theorem detect_robocall (text : String) (pats : PatternMatches)
    (ac : Option AcousticFeatures) (beh : Option BehavioralData) :
    (detect text pats ac beh).robocall_score
      = (calculateScores (allSignals text pats ac beh)).robocall := rfl

theorem detect_signals (text : String) (pats : PatternMatches)
    (ac : Option AcousticFeatures) (beh : Option BehavioralData) :
    (detect text pats ac beh).signals
      = (allSignals text pats ac beh).map FraudSignal.toOut := rfl

theorem nscore_insert_same (l1 l2 : List FraudSignal) (c kw : String)
    (hg : ∀ s ∈ l1 ++ l2, 0 ≤ s.confidence ∧ 0 ≤ s.weight)
    (hb : nscore (l1 ++ l2) c ≤ 0.9) :
    nscore (l1 ++ l2) c ≤ nscore (l1 ++ kwSignal c "high" kw :: l2) c := by
  have hr := catRaw_nonneg (l1 ++ l2) c hg
  have hw := catW_nonneg (l1 ++ l2) c fun s hs => (hg s hs).2
  have hgrow := normalizeCat_grow (catRaw (l1 ++ l2) c) (catW (l1 ++ l2) c) hr hw hb
  unfold nscore at hb ⊢
  rw [catRaw_insert, catW_insert, if_pos (kwSignal_high_cat c kw),
    if_pos (kwSignal_high_cat c kw), kwSignal_high_conf, kwSignal_high_weight]
  exact hgrow

/-!
Claim theorems.
-/

/-- Claim C2: for every DetectionResult returned by detect, the classification
equals "safe" if and only if the overall score is strictly below 30 and none
of the four category scores clears its classification threshold (spam 0.4,
fraud 0.5, phishing 0.45, robocall 0.5). -/
theorem claim_C2 (text : String) (pats : PatternMatches)
    (ac : Option AcousticFeatures) (beh : Option BehavioralData) :
    (detect text pats ac beh).classification = "safe" ↔
      ((detect text pats ac beh).risk_score < 30
        ∧ (detect text pats ac beh).spam_score < 0.4
        ∧ (detect text pats ac beh).fraud_score < 0.5
        ∧ (detect text pats ac beh).phishing_score < 0.45
        ∧ (detect text pats ac beh).robocall_score < 0.5) := by
  rw [detect_classification, detect_risk, detect_spam, detect_fraud, detect_phishing,
    detect_robocall]
  have hgood : ∀ s ∈ allSignals text pats ac beh, goodSignal s :=
    good_allSignals text pats ac beh
  have hnn : ∀ s ∈ allSignals text pats ac beh, 0 ≤ s.confidence ∧ 0 ≤ s.weight :=
    fun s hs => ⟨(hgood s hs).2.1, le_trans zero_le_one (hgood s hs).2.2.1⟩
  by_cases hex : ∃ s ∈ allSignals text pats ac beh, s.category ≠ "general"
  · obtain ⟨x, hx, hxg⟩ := hex
    have hxcat := (hgood x hx).1
    have hc4 : x.category = "spam" ∨ x.category = "fraud"
        ∨ x.category = "phishing" ∨ x.category = "robocall" := by
      simp only [theFiveCategories, List.mem_cons, List.mem_singleton] at hxcat
      rcases hxcat with h | h | h | h | h
      · exact Or.inl h
      · exact Or.inr (Or.inl h)
      · exact Or.inr (Or.inr (Or.inl h))
      · exact Or.inr (Or.inr (Or.inr h))
      · simp at h
        exact absurd h hxg
    have hscore : (0.6 : ℚ) ≤ nscore (allSignals text pats ac beh) x.category :=
      nscore_ge_threshold (allSignals text pats ac beh) x.category hgood hxg ⟨x, hx, rfl⟩
    have hmax : (0.6 : ℚ) ≤ max (max (max (nscore (allSignals text pats ac beh) "spam")
        (nscore (allSignals text pats ac beh) "fraud"))
        (nscore (allSignals text pats ac beh) "phishing"))
        (nscore (allSignals text pats ac beh) "robocall") := by
      rcases hc4 with h | h | h | h <;> rw [h] at hscore
      · exact le_trans hscore (le_trans (le_max_left _ _)
          (le_trans (le_max_left _ _) (le_max_left _ _)))
      · exact le_trans hscore (le_trans (le_max_right _ _)
          (le_trans (le_max_left _ _) (le_max_left _ _)))
      · exact le_trans hscore (le_trans (le_max_right _ _) (le_max_left _ _))
      · exact le_trans hscore (le_max_right _ _)
    have hg0 : (0 : ℚ) ≤ nscore (allSignals text pats ac beh) "general" :=
      nscore_nonneg _ _ hnn
    have hov : (60 : ℚ) ≤ (calculateScores (allSignals text pats ac beh)).overall := by
      rw [calculateScores_overall]
      exact overallFrom_ge_sixty hmax hg0
    constructor
    · intro hsafe
      exact absurd hsafe (determineClassification_ne_safe _ (by linarith))
    · rintro ⟨h30, -⟩
      linarith
  · push_neg at hex
    have hz : ∀ c', c' ≠ "general" → nscore (allSignals text pats ac beh) c' = 0 :=
      fun c' hc' => nscore_of_none _ c' fun s hs => by rw [hex s hs]; exact Ne.symm hc'
    have hs0 := hz "spam" (by decide)
    have hf0 := hz "fraud" (by decide)
    have hp0 := hz "phishing" (by decide)
    have hr0 := hz "robocall" (by decide)
    have hov : (calculateScores (allSignals text pats ac beh)).overall = 0 := by
      rw [calculateScores_overall, hs0, hf0, hp0, hr0, overallFrom_zero]
    have hcls : determineClassification (calculateScores (allSignals text pats ac beh))
        = "safe" := by
      unfold determineClassification
      rw [if_pos (by rw [hov]; norm_num :
        (calculateScores (allSignals text pats ac beh)).overall < 30)]
    rw [hcls, calculateScores_spam, calculateScores_fraud, calculateScores_phishing,
      calculateScores_robocall, hov, hs0, hf0, hp0, hr0]
    norm_num

/-- Claim C10: every DetectionResult of detect that is classified "safe" has
an overall risk score strictly below 50; equivalently a result with risk
score at least 50 never gets the safe label. -/
theorem claim_C10 (text : String) (pats : PatternMatches)
    (ac : Option AcousticFeatures) (beh : Option BehavioralData)
    (h : (detect text pats ac beh).classification = "safe") :
    (detect text pats ac beh).risk_score < 50 := by
  rw [detect_risk]
  rw [detect_classification] at h
  exact determineClassification_safe_lt_fifty _ h

/-- Claim C10 witness: the empty-input result is classified safe, so its risk
score is below 50. -/
theorem claim_C10_witness : (detect "" ⟨[], [], [], []⟩ none none).risk_score < 50 :=
  claim_C10 "" ⟨[], [], [], []⟩ none none (by with_unfolding_all decide)

/-- Claim C3: detect on the empty transcript with no acoustic and no
behavioral data returns classification "safe", risk score 0, confidence 0.95
and an empty signal list.  The empty transcript matches no keyword, and none
of the four pattern-family regexes can match the empty string, so all four
findall lists are empty. -/
theorem claim_C3 : detect "" ⟨[], [], [], []⟩ none none
    = ⟨"safe", 0, 0, 0, 0, 0, [], 0.95⟩ := by
  with_unfolding_all decide

/-- Claim C6 counterexample: appending the high-severity fraud keyword
"western union" to a text whose threat matches already push the fraud score
to 0.95 adds exactly one keyword signal and strictly lowers the risk score
(95 before, 92.5 after): the claim "adding a high-severity keyword match
never decreases risk_score" is false on the code.  The threat match list
is re.findall of the threat patterns on the text, identical for both texts
("western union" matches no threat pattern). -/
theorem claim_C6_counterexample :
    (analyzeLinguistic "jail prison court penalty western union"
      = analyzeLinguistic "jail prison court penalty"
          ++ [kwSignal "fraud" "high" "western union"])
    ∧ (detect "jail prison court penalty western union"
        ⟨[], ["jail", "prison", "court", "penalty"], [], []⟩ none none).risk_score
      < (detect "jail prison court penalty"
        ⟨[], ["jail", "prison", "court", "penalty"], [], []⟩ none none).risk_score := by
  with_unfolding_all decide

/-- Claim C6 (amended): adding one high-severity keyword match (confidence
0.9, weight 1.5) of category c to the signal list never decreases the overall
score, provided the normalized score of c before the addition is at most 0.9
(the dilution counterexample above is exactly the case where it exceeds 0.9). -/
theorem claim_C6_amended (l1 l2 : List FraudSignal) (c kw : String)
    (hg : ∀ s ∈ l1 ++ l2, 0 ≤ s.confidence ∧ 0 ≤ s.weight)
    (hc : c = "spam" ∨ c = "fraud" ∨ c = "phishing" ∨ c = "robocall")
    (hb : nscore (l1 ++ l2) c ≤ 0.9) :
    (calculateScores (l1 ++ l2)).overall
      ≤ (calculateScores (l1 ++ kwSignal c "high" kw :: l2)).overall := by
  rw [calculateScores_overall, calculateScores_overall]
  have hgen : (kwSignal c "high" kw).category ≠ "general" := by
    rw [kwSignal_high_cat]
    rcases hc with rfl | rfl | rfl | rfl <;> decide
  have hG : nscore (l1 ++ kwSignal c "high" kw :: l2) "general"
      = nscore (l1 ++ l2) "general" :=
    nscore_insert_ne l1 l2 _ "general" hgen
  have hsame := nscore_insert_same l1 l2 c kw hg hb
  have hnn : ∀ c', 0 ≤ nscore (l1 ++ l2) c' := fun c' => nscore_nonneg _ c' hg
  have hne : ∀ c', c ≠ c' →
      nscore (l1 ++ kwSignal c "high" kw :: l2) c' = nscore (l1 ++ l2) c' :=
    fun c' hcc' => nscore_insert_ne l1 l2 _ c' (by rw [kwSignal_high_cat]; exact hcc')
  rw [hG]
  rcases hc with rfl | rfl | rfl | rfl
  · rw [hne "fraud" (by decide), hne "phishing" (by decide), hne "robocall" (by decide)]
    exact overallFrom_mono hsame (le_refl _) (le_refl _) (le_refl _)
      (hnn "spam") (hnn "general")
  · rw [hne "spam" (by decide), hne "phishing" (by decide), hne "robocall" (by decide)]
    exact overallFrom_mono (le_refl _) hsame (le_refl _) (le_refl _)
      (hnn "spam") (hnn "general")
  · rw [hne "spam" (by decide), hne "fraud" (by decide), hne "robocall" (by decide)]
    exact overallFrom_mono (le_refl _) (le_refl _) hsame (le_refl _)
      (hnn "spam") (hnn "general")
  · rw [hne "spam" (by decide), hne "fraud" (by decide), hne "phishing" (by decide)]
    exact overallFrom_mono (le_refl _) (le_refl _) (le_refl _) hsame
      (hnn "spam") (hnn "general")

/-- Claim C6 witness: adding a high fraud keyword signal to the empty signal
list raises the overall score from 0 to 90. -/
theorem claim_C6_witness :
    (calculateScores ([] ++ [])).overall
      ≤ (calculateScores ([] ++ kwSignal "fraud" "high" "western union" :: [])).overall :=
  claim_C6_amended [] [] "fraud" "western union" (by simp) (by decide)
    (by with_unfolding_all decide)

/-- Claim C1 counterexample: on two fraud signals with confidences 0.85/0.9
and weights 1.4/1.5 the code returns overall 87.6 (rounded to one decimal)
while the spec formula min(100, M*B*G*100) gives 2540/29 = 87.5862...; the
claimed equality fails. -/
theorem claim_C1_counterexample :
    (calculateScores [⟨"keyword", "fraud", "kw1", 0.85, 1.4, []⟩,
        ⟨"keyword", "fraud", "kw2", 0.9, 1.5, []⟩]).overall = 438/5
    ∧ specOverall [⟨"keyword", "fraud", "kw1", 0.85, 1.4, []⟩,
        ⟨"keyword", "fraud", "kw2", 0.9, 1.5, []⟩] = 2540/29
    ∧ (438/5 : ℚ) ≠ 2540/29 := by
  refine ⟨by with_unfolding_all decide, ?_, by norm_num⟩
  have hM : specMaxCategory [⟨"keyword", "fraud", "kw1", 0.85, 1.4, []⟩,
      ⟨"keyword", "fraud", "kw2", 0.9, 1.5, []⟩] = 127/145 := by
    with_unfolding_all decide
  have hB : specBoost [⟨"keyword", "fraud", "kw1", 0.85, 1.4, []⟩,
      ⟨"keyword", "fraud", "kw2", 0.9, 1.5, []⟩] = 1 := by
    with_unfolding_all decide
  have hG : specGeneralModifier [⟨"keyword", "fraud", "kw1", 0.85, 1.4, []⟩,
      ⟨"keyword", "fraud", "kw2", 0.9, 1.5, []⟩] = 1 := by
    with_unfolding_all decide
  unfold specOverall
  rw [hM, hB, hG]
  norm_num [min_def]

/-- Claim C1 (amended): for every list of well-formed signals (nonnegative
confidences and weights), _calculate_scores returns exactly the spec category
scores (normalized weighted mean, divisor floored at 1, clipped to [0,1]) and
the overall score min(100, max_category * boost * general_modifier * 100)
rounded to one decimal place. -/
theorem claim_C1_amended (l : List FraudSignal)
    (h : ∀ s ∈ l, 0 ≤ s.confidence ∧ 0 ≤ s.weight) :
    calculateScores l = ⟨specCategoryScore l "spam", specCategoryScore l "fraud",
      specCategoryScore l "phishing", specCategoryScore l "robocall",
      round1 (specOverall l)⟩ := by
  have hspec : ∀ c, specCategoryScore l c = nscore l c := by
    intro c
    unfold specCategoryScore nscore normalizeCat
    by_cases hw : catW l c > 0
    · rw [if_pos hw]
      have hr := catRaw_nonneg l c h
      have hmax : (0 : ℚ) < max (catW l c) 1 := lt_of_lt_of_le one_pos (le_max_right _ _)
      exact max_eq_right (le_min (div_nonneg hr (le_of_lt hmax)) zero_le_one)
    · rw [if_neg hw]
      have hw0 : catW l c = 0 :=
        le_antisymm (not_lt.1 hw) (catW_nonneg l c fun s hs => (h s hs).2)
      have hr0 : catRaw l c = 0 := catRaw_of_catW_zero l c h hw0
      rw [hr0, hw0]
      norm_num
  have hov : overallFrom (nscore l "spam") (nscore l "fraud") (nscore l "phishing")
      (nscore l "robocall") (nscore l "general") = round1 (specOverall l) := by
    unfold overallFrom specOverall specMaxCategory specBoost specGeneralModifier
      specActive boostFrom activeFrom
    rw [hspec "spam", hspec "fraud", hspec "phishing", hspec "robocall", hspec "general",
      min_comm]
  rw [calculateScores_eq, hspec "spam", hspec "fraud", hspec "phishing",
    hspec "robocall", hov]

/-- Claim C1 witness: on a single fraud keyword signal the code fraud score
equals the spec formula, which evaluates to 0.9. -/
theorem claim_C1_witness :
    (calculateScores [⟨"keyword", "fraud", "kw", 0.9, 1.5, []⟩]).fraud
      = specCategoryScore [⟨"keyword", "fraud", "kw", 0.9, 1.5, []⟩] "fraud"
    ∧ specCategoryScore [⟨"keyword", "fraud", "kw", 0.9, 1.5, []⟩] "fraud" = 9/10 := by
  constructor
  · rw [claim_C1_amended [⟨"keyword", "fraud", "kw", 0.9, 1.5, []⟩]
      (by with_unfolding_all decide)]
  · with_unfolding_all decide

/-- Claim C4: each regex family that produces at least one match emits exactly
one aggregate Signal (not one per match); its confidence is
min(base + count*step, cap) with per-family constants, its weight is a fixed
per-family constant in [1.3, 1.6], and its evidence is capped to the first
3 to 5 matches.  The four families are distinguished by their categories
(urgency:general, threat:fraud, request:phishing, robocall:robocall). -/
theorem claim_C4 (u t r b : List String) :
    ((analyzePatterns u t r b).filter (fun s => s.category == "general")
        = if u = [] then [] else [urgencySignal u])
    ∧ ((analyzePatterns u t r b).filter (fun s => s.category == "fraud")
        = if t = [] then [] else [threatSignal t])
    ∧ ((analyzePatterns u t r b).filter (fun s => s.category == "phishing")
        = if r = [] then [] else [requestSignal r])
    ∧ ((analyzePatterns u t r b).filter (fun s => s.category == "robocall")
        = if b = [] then [] else [robocallSignal b])
    ∧ (urgencySignal u).confidence = min (0.5 + (u.length : ℚ) * 0.1) 0.95
    ∧ (threatSignal t).confidence = min (0.6 + (t.length : ℚ) * 0.1) 0.95
    ∧ (requestSignal r).confidence = min (0.9 + (r.length : ℚ) * 0) 0.9
    ∧ (robocallSignal b).confidence = min (0.85 + (b.length : ℚ) * 0) 0.85
    ∧ (urgencySignal u).weight = 1.3 ∧ (threatSignal t).weight = 1.5
    ∧ (requestSignal r).weight = 1.6 ∧ (robocallSignal b).weight = 1.4
    ∧ (urgencySignal u).evidence = u.take 5 ∧ (threatSignal t).evidence = t.take 5
    ∧ (requestSignal r).evidence = r.take 3 ∧ (robocallSignal b).evidence = b.take 3 := by
  refine ⟨?_, ?_, ?_, ?_, rfl, rfl, by norm_num [requestSignal],
    by norm_num [robocallSignal], rfl, rfl, rfl, rfl, rfl, rfl, rfl, rfl⟩ <;>
    unfold analyzePatterns <;>
    rw [List.filter_append, List.filter_append, List.filter_append] <;>
    split_ifs <;>
    simp [urgencySignal, threatSignal, requestSignal, robocallSignal]

/-- Claim C5 counterexample: with two AI indicators whose components sum to
0.1 (and no human evidence), the code returns confidence 0.5 flat, not the
score-difference-scaled 0.5 + (0.1 - 0)*0.3 = 0.53 the claim predicts for
any indicator count of at least 1: the claim misses the ai_score >= 0.15
condition of the scaled-uncertain branch. -/
theorem claim_C5_counterexample :
    calculateClassification ⟨["a", "b"], [], [0.05, 0.05], []⟩
        = (VoiceClassification.uncertain, 0.5)
    ∧ ((0.5 : ℚ) ≠ 0.5 + ((0.1 : ℚ) - 0) * 0.3) := by
  with_unfolding_all decide

/-- Claim C5 (amended): the branch structure of _calculate_classification,
with the scaled-uncertain branch guarded by indicator count >= 1 AND
ai_score >= 0.15 (flat 0.5 otherwise), and the human side carrying no flat
fallback. -/
theorem claim_C5_amended (a : VoiceAnalysis) :
    (qsum a.ai_score_components > qsum a.human_score_components →
      calculateClassification a =
        if a.ai_indicators.length ≥ 4 ∧ qsum a.ai_score_components ≥ 0.35 then
          (VoiceClassification.ai_generated,
            min 0.95 (0.5 + qsum a.ai_score_components
              / (qsum a.ai_score_components + qsum a.human_score_components + 0.1) * 0.45))
        else if a.ai_indicators.length ≥ 2 ∧ qsum a.ai_score_components ≥ 0.25 then
          (VoiceClassification.ai_generated,
            min 0.95 (0.5 + qsum a.ai_score_components
              / (qsum a.ai_score_components + qsum a.human_score_components + 0.1) * 0.45) * 0.9)
        else if a.ai_indicators.length ≥ 1 ∧ qsum a.ai_score_components ≥ 0.15 then
          (VoiceClassification.uncertain,
            0.5 + (qsum a.ai_score_components - qsum a.human_score_components) * 0.3)
        else (VoiceClassification.uncertain, 0.5))
    ∧ (qsum a.human_score_components > qsum a.ai_score_components →
      calculateClassification a =
        if a.human_indicators.length ≥ 3 ∧ qsum a.human_score_components ≥ 0.3 then
          (VoiceClassification.human,
            min 0.95 (0.5 + qsum a.human_score_components
              / (qsum a.ai_score_components + qsum a.human_score_components + 0.1) * 0.45))
        else if a.human_indicators.length ≥ 2 ∧ qsum a.human_score_components ≥ 0.2 then
          (VoiceClassification.human,
            min 0.95 (0.5 + qsum a.human_score_components
              / (qsum a.ai_score_components + qsum a.human_score_components + 0.1) * 0.45) * 0.9)
        else (VoiceClassification.uncertain,
          0.5 + (qsum a.human_score_components - qsum a.ai_score_components) * 0.3))
    ∧ (qsum a.ai_score_components = qsum a.human_score_components →
      calculateClassification a = (VoiceClassification.uncertain, 0.5)) := by
  refine ⟨fun h => ?_, fun h => ?_, fun h => ?_⟩
  · unfold calculateClassification
    rw [if_pos h]
  · unfold calculateClassification
    rw [if_neg (lt_asymm h), if_pos h]
  · unfold calculateClassification
    rw [if_neg (by rw [h]; exact lt_irrefl _), if_neg (by rw [h]; exact lt_irrefl _)]

/-- Claim C5 witness: four AI indicators with component sum 0.4 against no
human evidence classify as ai_generated at confidence min(0.95, 0.86). -/
theorem claim_C5_witness :
    calculateClassification ⟨["a", "b", "c", "d"], [], [0.1, 0.1, 0.1, 0.1], []⟩
      = (VoiceClassification.ai_generated, 43/50) := by
  rw [(claim_C5_amended ⟨["a", "b", "c", "d"], [], [0.1, 0.1, 0.1, 0.1], []⟩).1
    (by with_unfolding_all decide)]
  with_unfolding_all decide

/-- Claim C7 counterexample: appending one signal of confidence 0.6 to the
empty signal list lowers the confidence from 0.95 to 0.7, so confidence is
not monotonically non-decreasing in signal count. -/
theorem claim_C7_counterexample :
    calculateConfidence ([] ++ [⟨"acoustic", "spam",
        "Call center background noise detected", 0.6, 1.0, []⟩])
      < calculateConfidence [] := by
  with_unfolding_all decide

/-- Claim C7 (amended): confidence is 0.95 on the empty signal list and
min(0.99, mean confidence + min(count/10, 0.2)) otherwise; the signal-count
boost is monotone, and appending one signal never decreases the confidence
provided the new signal's confidence is at least the current mean. -/
theorem claim_C7_amended (l : List FraudSignal) (s : FraudSignal)
    (hne : l ≠ []) (hc : meanConf l ≤ s.confidence) :
    calculateConfidence [] = 0.95
    ∧ calculateConfidence l = min (meanConf l + min ((l.length : ℚ) / 10) 0.2) 0.99
    ∧ calculateConfidence l ≤ calculateConfidence (l ++ [s]) := by
  have hformula : ∀ m : List FraudSignal, m ≠ [] →
      calculateConfidence m = min (meanConf m + min ((m.length : ℚ) / 10) 0.2) 0.99 := by
    intro m hm
    unfold calculateConfidence meanConf
    rw [if_neg hm]
  refine ⟨by unfold calculateConfidence; rw [if_pos rfl], hformula l hne, ?_⟩
  have hne' : l ++ [s] ≠ [] := by simp
  rw [hformula l hne, hformula _ hne']
  have hlen : ((l ++ [s]).length : ℚ) = (l.length : ℚ) + 1 := by
    simp
  have hn1 : (1 : ℚ) ≤ (l.length : ℚ) := by
    have h0 : 1 ≤ l.length := List.length_pos.2 hne
    exact_mod_cast h0
  have hnpos : (0 : ℚ) < (l.length : ℚ) := by linarith
  have hS : sumConf l ≤ s.confidence * (l.length : ℚ) := by
    unfold meanConf at hc
    exact (div_le_iff₀ hnpos).1 hc
  have hmean : meanConf l ≤ meanConf (l ++ [s]) := by
    unfold meanConf
    rw [sumConf_append, hlen]
    have hsing : sumConf [s] = s.confidence := by
      simp [sumConf]
    rw [hsing, div_le_div_iff₀ hnpos (by linarith)]
    nlinarith
  have hboost : min ((l.length : ℚ) / 10) 0.2 ≤ min (((l ++ [s]).length : ℚ) / 10) 0.2 := by
    refine min_le_min ?_ (le_refl _)
    rw [hlen]
    linarith
  exact min_le_min (add_le_add hmean hboost) (le_refl _)

/-- Claim C7 witness: appending a second 0.9-confidence signal to a
one-signal list does not decrease the confidence. -/
theorem claim_C7_witness :
    calculateConfidence [⟨"keyword", "fraud", "kw", 0.9, 1.5, ["kw"]⟩]
      ≤ calculateConfidence ([⟨"keyword", "fraud", "kw", 0.9, 1.5, ["kw"]⟩]
          ++ [⟨"keyword", "fraud", "kw", 0.9, 1.5, ["kw"]⟩]) :=
  (claim_C7_amended [⟨"keyword", "fraud", "kw", 0.9, 1.5, ["kw"]⟩]
    ⟨"keyword", "fraud", "kw", 0.9, 1.5, ["kw"]⟩
    (by decide) (by with_unfolding_all decide)).2.2

/-- Claim C8 counterexample: the UPI table hit for "UPI payment" is emitted
with confidence 0.9 and weight 1.5, not the claimed fixed 0.85/1.4. -/
theorem claim_C8_counterexample :
    (⟨"keyword", "fraud",
      "Detected high-risk UPI/payment fraud keyword: \x27UPI payment\x27",
      0.9, 1.5, ["UPI payment"]⟩ : FraudSignal) ∈ upiSignals "UPI payment"
    ∧ ¬((0.9 : ℚ) = 0.85 ∧ (1.5 : ℚ) = 1.4) := by
  with_unfolding_all decide

/-- Claim C8 (amended): Hindi-table hits use the fixed confidence 0.85 and
weight 1.4; UPI-table hits instead use the severity pair 0.9/1.5 (high) or
0.7/1.0 (medium). -/
theorem claim_C8_amended (text : String) :
    (∀ s ∈ hindiSignals text, s.confidence = 0.85 ∧ s.weight = 1.4)
    ∧ (∀ s ∈ upiSignals text,
        (s.confidence = 0.9 ∧ s.weight = 1.5) ∨ (s.confidence = 0.7 ∧ s.weight = 1.0)) := by
  constructor
  · intro s hs
    simp only [hindiSignals, List.mem_flatMap, List.mem_map, List.mem_filter] at hs
    obtain ⟨p, hp, kw, -, rfl⟩ := hs
    exact ⟨rfl, rfl⟩
  · intro s hs
    simp only [upiSignals, List.mem_flatMap, List.mem_map, List.mem_filter] at hs
    obtain ⟨p, hp, kw, -, rfl⟩ := hs
    rcases upiKeywords_sev p hp with h | h
    · left
      rw [h]
      exact ⟨by simp, by simp⟩
    · right
      rw [h]
      exact ⟨by simp, by simp⟩

/-- Claim C8 witness: the Hindi-table hit for "OTP batao" carries confidence
0.85 and weight 1.4. -/
theorem claim_C8_witness :
    (⟨"keyword", "fraud", "Detected Hindi fraud keyword: \x27OTP batao\x27",
      0.85, 1.4, ["OTP batao"]⟩ : FraudSignal).confidence = 0.85
    ∧ (⟨"keyword", "fraud", "Detected Hindi fraud keyword: \x27OTP batao\x27",
      0.85, 1.4, ["OTP batao"]⟩ : FraudSignal).weight = 1.4 :=
  (claim_C8_amended "OTP batao").1 _ (by with_unfolding_all decide)

theorem normalizeCatE_ok (raw w : ℚ) :
    normalizeCatE raw w = Except.ok (normalizeCat raw w) := by
  unfold normalizeCatE normalizeCat qdivE
  split_ifs with h1 h2
  · exact absurd h2 (ne_of_gt (lt_of_lt_of_le one_pos (le_max_right w 1)))
  · rfl
  · rfl

theorem calculateScoresE_ok (l : List FraudSignal) :
    calculateScoresE l = Except.ok (calculateScores l) := by
  simp only [calculateScoresE, calculateScores, normalizeCatE_ok]
  rfl

theorem calculateConfidenceE_ok (l : List FraudSignal) :
    calculateConfidenceE l = Except.ok (calculateConfidence l) := by
  unfold calculateConfidenceE calculateConfidence qdivE
  split_ifs with h1 h2
  · rfl
  · exfalso
    have h0 : l.length = 0 := by exact_mod_cast h2
    exact h1 (List.length_eq_zero.1 h0)
  · rfl

/-- Claim C9: detect never raises for inputs of the documented shapes.  The
exception-aware pipeline detectE, which errs exactly where CPython would
raise a ZeroDivisionError, always returns Except.ok of the total result; and
an absent acoustic or behavioral bundle skips its extractor: no signal of
that extractor type appears in the output. -/
theorem claim_C9 (text : String) (pats : PatternMatches)
    (ac : Option AcousticFeatures) (beh : Option BehavioralData) :
    detectE text pats ac beh = Except.ok (detect text pats ac beh)
    ∧ (ac = none → ∀ s ∈ (detect text pats ac beh).signals, s.type ≠ "acoustic")
    ∧ (beh = none → ∀ s ∈ (detect text pats ac beh).signals, s.type ≠ "behavioral") := by
  refine ⟨?_, ?_, ?_⟩
  · simp only [detectE, calculateScoresE_ok, calculateConfidenceE_ok]
    rfl
  · rintro rfl s hs
    rw [detect_signals] at hs
    simp only [List.mem_map] at hs
    obtain ⟨x, hx, rfl⟩ := hs
    unfold allSignals at hx
    simp only [List.mem_append] at hx
    show x.signalType ≠ "acoustic"
    rcases hx with ((hL | hA) | hB) | hP
    · rw [type_analyzeLinguistic text x hL]
      decide
    · simp at hA
    · rcases beh with - | d
      · simp at hB
      · rw [type_analyzeBehavioral d x hB]
        decide
    · rw [type_analyzePatterns pats.urgency pats.threat pats.request pats.robocall x hP]
      decide
  · rintro rfl s hs
    rw [detect_signals] at hs
    simp only [List.mem_map] at hs
    obtain ⟨x, hx, rfl⟩ := hs
    unfold allSignals at hx
    simp only [List.mem_append] at hx
    show x.signalType ≠ "behavioral"
    rcases hx with ((hL | hA) | hB) | hP
    · rw [type_analyzeLinguistic text x hL]
      decide
    · rcases ac with - | f
      · simp at hA
      · rw [type_analyzeAcoustic f x hA]
        decide
    · simp at hB
    · rw [type_analyzePatterns pats.urgency pats.threat pats.request pats.robocall x hP]
      decide

/-- Claim C9 witness: on a concrete transcript the checked pipeline returns
ok of the total result, and (with both optional bundles absent) the single
emitted Hindi keyword signal is not of acoustic type. -/
theorem claim_C9_witness :
    detectE "OTP batao" ⟨[], [], [], []⟩ none none
        = Except.ok (detect "OTP batao" ⟨[], [], [], []⟩ none none)
    ∧ (⟨"keyword", "fraud", "Detected Hindi fraud keyword: \x27OTP batao\x27",
        0.85, ["OTP batao"]⟩ : SignalOut).type ≠ "acoustic" :=
  ⟨(claim_C9 "OTP batao" ⟨[], [], [], []⟩ none none).1,
   (claim_C9 "OTP batao" ⟨[], [], [], []⟩ none none).2.1 rfl _
     (by with_unfolding_all decide)⟩
